import Mathlib

/-!
# QgsLayoutItem3DMap: a layout item showing a rendered 3D scene

Shallow embedding of `src/3d/qgslayoutitem3dmap.cpp`.

* `Qgs3DMapSettings`, `QgsCameraPose` and the payload of a DOM element are
  types of collaborators; they are the type parameters `S`, `P` and `X`.
  `QgsCameraPose::operator==` is value equality (`DecidableEq P`).
* The member `mLayout` is dereferenced without a test by `draw` and by
  `readPropertiesFromElement`; what they read from the layout is an argument
  of the embedded function.  `assignFreeId` tests `mLayout`, so there it is an
  `Option`.
* A null `QImage` is `none`; a non-null image records what it depicts.
* `int` is a 32 bit two's complement integer: `maxId + 1` is wrapped.
-/

namespace QgsLayoutItem3DMap

/-! ## Value types -/

/-- Size in whole units (`QSize`, and the item size the layout hands out). -/
structure QSize where
  width : Int
  height : Int
deriving DecidableEq, Repr

/-- Rectangle `QRect( x, y, w, h )`. -/
structure QRect where
  x : Int
  y : Int
  w : Int
  h : Int
deriving DecidableEq, Repr

/-- Content of a non-null image: the settings the scene was built from, the
camera pose the scene had and the size of the engine when it was rendered. -/
structure Frame (S P : Type) where
  settings : S
  cameraPose : Option P
  size : QSize
deriving DecidableEq, Repr

/-- Image value `QImage`: `none` is the null image `QImage()`. -/
abbrev QImage (S P : Type) := Option (Frame S P)

/-- Scene `Qgs3DMapScene`: built from `*mSettings`, holds the camera
controller's pose and reports whether its state is `Ready`. -/
structure Qgs3DMapScene (S P : Type) where
  settings : S
  cameraPose : Option P
  ready : Bool
deriving DecidableEq, Repr

/-- Modelled from the spec: `QgsOffscreen3DEngine` is not part of the source
file; it "renders a scene to an image asynchronously, emits a captured-image
event". The state is the size, whether a root entity was set, and the frames
requested with `requestCaptureImage` that were not delivered yet. -/
structure QgsOffscreen3DEngine (S P : Type) where
  size : QSize
  rootEntitySet : Bool
  pending : List (Frame S P)
deriving DecidableEq, Repr

/-- Operations received by the `QPainter`. -/
inductive PaintOp (S P : Type) where
  | save
  | restore
  | drawText (r : QRect) (text : String)
  | drawImage (r : QRect) (img : QImage S P)
deriving DecidableEq, Repr

/-- Child element of a DOM element: tag name and payload. An element handed to
the item is the list of its child elements. -/
structure QDomElement (X : Type) where
  tagName : String
  content : X
deriving DecidableEq, Repr

/-- Members of a `QgsLayoutItem3DMap`, with the members of the base class the
code reads (`id()`, tool tip, size) and a count of the `update()` calls. -/
structure Item (S P : Type) where
  mMapId : Int
  id : String
  toolTip : String
  size : QSize
  mSettings : Option S
  mCameraPose : P
  mCapturedImage : QImage S P
  mEngine : Option (QgsOffscreen3DEngine S P)
  mScene : Option (Qgs3DMapScene S P)
  mDrawing : Bool
  updateRequests : Nat
deriving DecidableEq, Repr

/-- What `draw` reads from its render context and from the layout:
`scale x` is `static_cast<int>( std::ceil( x * ctx.scaleFactor() ) )`,
`isPreviewRender` is `mLayout->renderContext().isPreviewRender()`,
`toPixels` is the measurement conversion to layout pixels followed by the
two `std::ceil` casts, and `sceneReadyOnCreation` is the state a scene
built during this call reports. -/
structure QgsLayoutItemRenderContext where
  scale : Int → Int
  isPreviewRender : Bool
  toPixels : QSize → QSize
  sceneReadyOnCreation : Bool

/-- Collaborators of the XML persistence, at the read/write context in use:
`settingsReadXml e` is `new Qgs3DMapSettings` followed by `readXml( e, context )`,
`resolveReferences` is `Qgs3DMapSettings::resolveReferences( project )`,
`poseReadXml p e` is `p.readXml( e )`. -/
structure Xml (S P X : Type) where
  settingsWriteXml : S → QDomElement X
  settingsReadXml : QDomElement X → S
  resolveReferences : S → S
  poseWriteXml : P → QDomElement X
  poseReadXml : P → QDomElement X → P

/-- Result of one `draw` call: the item afterwards, the painter operations in
order, and the number of synchronous captures performed. -/
structure DrawResult (S P : Type) where
  item : Item S P
  painter : List (PaintOp S P)
  syncCaptures : Nat
deriving DecidableEq, Repr

variable {S P X : Type}

/-! ## Identity -/

/-- Smallest `int`. -/
def INT_MIN : Int := -2147483648

/-- Largest `int`. -/
def INT_MAX : Int := 2147483647

/-- Value of an `int` expression: reduction to the 32 bit two's complement range. -/
def wrapInt (x : Int) : Int := (x + 2147483648) % 4294967296 - 2147483648

/-- The values an `int` member can hold. -/
def inIntRange (x : Int) : Prop := INT_MIN ≤ x ∧ x ≤ INT_MAX

instance (x : Int) : Decidable (inIntRange x) := by
  unfold inIntRange
  exact inferInstance

/-- Text of `displayName()`: the item id when it is not empty, `3D Map <mapId>` otherwise. -/
def displayName (it : Item S P) : String :=
  if !it.id.isEmpty then it.id else "3D Map " ++ toString it.mMapId

/-- Method `updateToolTip()`. -/
def updateToolTip (it : Item S P) : Item S P :=
  { it with toolTip := displayName it }

/-- Loop of `assignFreeId` over `mapsList`: `acc` is `( maxId, used )`, `heap`
gives the object at an address, `self` is the address of `this`. -/
def scanMaps (heap : Nat → Item S P) (self : Nat) (mapsList : List Nat) (acc : Int × Bool) :
    Int × Bool :=
  mapsList.foldl
    (fun a m =>
      if m = self then a
      else (max a.1 (heap m).mMapId, a.2 || decide ((heap m).mMapId = (heap self).mMapId)))
    acc

/-- Method `assignFreeId()` run on the object at address `self`. `mLayout` is the
list of the addresses of the 3D map items of the layout, or `none`. Returns
the heap afterwards and the items passed to `updateItemDisplayName`. -/
def assignFreeId (heap : Nat → Item S P) (self : Nat) (mLayout : Option (List Nat)) :
    (Nat → Item S P) × List Nat :=
  match mLayout with
  | none => (heap, [])
  | some mapsList =>
    let res := scanMaps heap self mapsList (-1, false)
    if res.2 then
      let it := { heap self with mMapId := wrapInt (res.1 + 1) }
      (Function.update heap self (updateToolTip it), [self])
    else
      (Function.update heap self (updateToolTip (heap self)), [])

/-- Method `finalizeRestoreFromXml()`. -/
def finalizeRestoreFromXml (heap : Nat → Item S P) (self : Nat) (mLayout : Option (List Nat)) :
    (Nat → Item S P) × List Nat :=
  assignFreeId heap self mLayout

/-! ## Drawing and cache -/

/-- Modelled from the spec: `Qgs3DUtils::captureSceneImage` is not part of the
source file; "block synchronously until a capture is produced". The capture
is the frame of the scene as rendered by the engine. -/
def captureSceneImage (engine : QgsOffscreen3DEngine S P) (scene : Qgs3DMapScene S P) :
    QImage S P :=
  some ⟨scene.settings, scene.cameraPose, engine.size⟩

/-- Modelled from the spec: engine method `requestCaptureImage()`, "request
asynchronous capture"; the request records the frame of the scene as it is. -/
def requestCaptureImage (engine : QgsOffscreen3DEngine S P) (scene : Qgs3DMapScene S P) :
    QgsOffscreen3DEngine S P :=
  { engine with pending := engine.pending ++ [⟨scene.settings, scene.cameraPose, engine.size⟩] }

/-- Slot `onImageCaptured( img )`. -/
def onImageCaptured (img : QImage S P) (it : Item S P) : Item S P :=
  { it with mCapturedImage := img, updateRequests := it.updateRequests + 1 }

/-- Slot `onSceneStateChanged()`; `none` when `mScene` or `mEngine` is null
where the code dereferences it. -/
def onSceneStateChanged (it : Item S P) : Option (Item S P) :=
  if it.mCapturedImage.isNone then
    match it.mScene with
    | none => none
    | some scene =>
      if scene.ready then
        match it.mEngine with
        | none => none
        | some engine => some { it with mEngine := some (requestCaptureImage engine scene) }
      else some it
  else some it

/-- Slot `onSizePositionChanged()`. -/
def onSizePositionChanged (it : Item S P) : Item S P :=
  { it with mCapturedImage := none, updateRequests := it.updateRequests + 1 }

/-- Method `setMapSettings( settings )`; a null pointer is `none`. -/
def setMapSettings (settings : Option S) (it : Item S P) : Item S P :=
  { it with mSettings := settings, mEngine := none, mScene := none,
            mCapturedImage := none, updateRequests := it.updateRequests + 1 }

/-- Method `refresh()`; the base class `refresh()` touches none of the members here. -/
def refresh (it : Item S P) : Item S P :=
  { it with mCapturedImage := none }

/-- Method `setCameraPose( pose )`. -/
def setCameraPose [DecidableEq P] (pose : P) (it : Item S P) : Item S P :=
  if it.mCameraPose = pose then it
  else { it with mCameraPose := pose, mCapturedImage := none,
                 updateRequests := it.updateRequests + 1 }

/-- Method `draw( context )`; `none` when `mScene` is null where the code
dereferences it. -/
def draw (ctx : QgsLayoutItemRenderContext) (it : Item S P) : Option (DrawResult S P) :=
  let r : QRect := ⟨0, 0, ctx.scale it.size.width, ctx.scale it.size.height⟩
  let p0 : List (PaintOp S P) := [PaintOp.save]
  match it.mSettings with
  | none => some ⟨it, p0 ++ [PaintOp.drawText r "Scene not set", PaintOp.restore], 0⟩
  | some settings =>
    if it.mCapturedImage.isSome then
      some ⟨it, p0 ++ [PaintOp.drawImage r it.mCapturedImage, PaintOp.restore], 0⟩
    else
      let p1 : List (PaintOp S P) :=
        if ctx.isPreviewRender then p0 ++ [PaintOp.drawText r "Loading", PaintOp.restore] else p0
      let sizePixelsInt := ctx.toPixels it.size
      let it1 : Item S P :=
        match it.mEngine with
        | none =>
          { it with
            mEngine := some ⟨sizePixelsInt, true, []⟩,
            mScene := some ⟨settings, none, ctx.sceneReadyOnCreation⟩ }
        | some _ => it
      match it1.mEngine, it1.mScene with
      | some engine, some scene =>
        let engine1 := if engine.size ≠ sizePixelsInt then { engine with size := sizePixelsInt }
                       else engine
        let scene1 := { scene with cameraPose := some it.mCameraPose }
        let it2 : Item S P := { it1 with mEngine := some engine1, mScene := some scene1 }
        if ctx.isPreviewRender then
          (onSceneStateChanged it2).map (fun it3 => ⟨it3, p1, 0⟩)
        else if it2.mDrawing then
          some ⟨it2, p1, 0⟩
        else
          let it3 : Item S P := { it2 with mDrawing := true }
          let _first := captureSceneImage engine1 scene1
          let img := captureSceneImage engine1 scene1
          let p2 := p1 ++ [PaintOp.drawImage r img, PaintOp.restore]
          some ⟨{ it3 with mDrawing := false }, p2, 2⟩
      | _, _ => none

/-! ## Persistence -/

/-- DOM method `firstChildElement( name )` on the children of an element; a null
element is `none`. -/
def firstChildElement (element : List (QDomElement X)) (name : String) :
    Option (QDomElement X) :=
  element.find? (fun c => c.tagName == name)

/-- Method `writePropertiesToElement`: the returned flag and the element afterwards. -/
def writePropertiesToElement (xml : Xml S P X) (it : Item S P) (element : List (QDomElement X)) :
    Bool × List (QDomElement X) :=
  let element1 :=
    match it.mSettings with
    | some s => element ++ [xml.settingsWriteXml s]
    | none => element
  (true, element1 ++ [xml.poseWriteXml it.mCameraPose])

/-- Method `readPropertiesFromElement`: the returned flag and the item
afterwards. `hasProject` is `mLayout->project()` being non-null. -/
def readPropertiesFromElement (xml : Xml S P X) (hasProject : Bool)
    (element : List (QDomElement X)) (it : Item S P) : Bool × Item S P :=
  let it1 : Item S P :=
    match firstChildElement element "qgis3d" with
    | some elemSettings =>
      let s := xml.settingsReadXml elemSettings
      { it with mSettings := some (if hasProject then xml.resolveReferences s else s) }
    | none => it
  let it2 : Item S P :=
    match firstChildElement element "camera-pose" with
    | some elemCameraPose =>
      { it1 with mCameraPose := xml.poseReadXml it1.mCameraPose elemCameraPose }
    | none => it1
  (true, it2)

/-! ## Life of one item -/

/-- Modelled from the spec: the member initialisers are in the header, which is
not part of the source file. A newly constructed item has no settings, a null
image, no engine, no scene, a clear latch and the default camera pose. -/
def newItem (mapId : Int) (size : QSize) (poseDefault : P) : Item S P :=
  { mMapId := mapId, id := "", toolTip := "", size := size, mSettings := none,
    mCameraPose := poseDefault, mCapturedImage := none, mEngine := none, mScene := none,
    mDrawing := false, updateRequests := 0 }

/-- Modelled from the spec: "capture arrival is delivered via a callback". The
engine emits `imageCaptured` for the oldest requested capture, which runs
`onImageCaptured`. Nothing happens without an engine or a request. -/
def deliverCapture (it : Item S P) : Item S P :=
  match it.mEngine with
  | some engine =>
    match engine.pending with
    | frame :: rest =>
      onImageCaptured (some frame) { it with mEngine := some { engine with pending := rest } }
    | [] => it
  | none => it

/-- Modelled from the spec: "scene-readiness callback". The scene changes its
state and emits `sceneStateChanged`, which runs `onSceneStateChanged`.
Nothing happens without a scene. -/
def sceneStateChanged (ready : Bool) (it : Item S P) : Option (Item S P) :=
  match it.mScene with
  | some scene => onSceneStateChanged { it with mScene := some { scene with ready := ready } }
  | none => some it

/-- Modelled from the spec: "triggered whenever the item's size or position
changes". The base class stores the size and emits `sizePositionChanged`,
which runs `onSizePositionChanged`. -/
def sizePositionChanged (size : QSize) (it : Item S P) : Item S P :=
  onSizePositionChanged { it with size := size }

/-- Operations on one item. -/
inductive Op (S P X : Type) where
  | setMapSettings (settings : Option S)
  | setCameraPose (pose : P)
  | sizePositionChanged (size : QSize)
  | refresh
  | readPropertiesFromElement (hasProject : Bool) (element : List (QDomElement X))
  | draw (ctx : QgsLayoutItemRenderContext)
  | imageCaptured
  | sceneStateChanged (ready : Bool)

/-- One operation; `none` when the code dereferences a null pointer. -/
def step [DecidableEq P] (xml : Xml S P X) (it : Item S P) : Op S P X → Option (Item S P)
  | Op.setMapSettings s => some (setMapSettings s it)
  | Op.setCameraPose p => some (setCameraPose p it)
  | Op.sizePositionChanged sz => some (sizePositionChanged sz it)
  | Op.refresh => some (refresh it)
  | Op.readPropertiesFromElement hp el => some (readPropertiesFromElement xml hp el it).2
  | Op.draw ctx => (draw ctx it).map (fun r => r.item)
  | Op.imageCaptured => some (deliverCapture it)
  | Op.sceneStateChanged b => sceneStateChanged b it

/-- A sequence of operations, from left to right. -/
def run [DecidableEq P] (xml : Xml S P X) : Item S P → List (Op S P X) → Option (Item S P)
  | it, [] => some it
  | it, op :: ops =>
    match step xml it op with
    | some it1 => run xml it1 ops
    | none => none

/-! ## Vocabulary of the statements -/

/-- Map ids of the other 3D map items of the layout, in list order. -/
def otherIds (heap : Nat → Item S P) (self : Nat) (mapsList : List Nat) : List Int :=
  (mapsList.filter (fun m => decide (m ≠ self))).map (fun m => (heap m).mMapId)

/-- Specification of a maximum: `m` occurs in `ids` and bounds every element. -/
def isMaxId (ids : List Int) (m : Int) : Prop :=
  m ∈ ids ∧ ∀ x ∈ ids, x ≤ m

instance (ids : List Int) (m : Int) : Decidable (isMaxId ids m) := by
  unfold isMaxId
  exact inferInstance

/-- Item used in the concrete evaluations: map id `k`, everything else as new. -/
def sampleItem (k : Int) : Item Nat Nat :=
  { (newItem 1 ⟨10, 10⟩ 0 : Item Nat Nat) with mMapId := k }

/-- Render context of the concrete evaluations, preview mode. -/
def previewCtx : QgsLayoutItemRenderContext :=
  ⟨fun x => 2 * x, true, fun s => ⟨3 * s.width, 3 * s.height⟩, false⟩

/-- Render context of the concrete evaluations, final (export) mode. -/
def finalCtx : QgsLayoutItemRenderContext :=
  ⟨fun x => 2 * x, false, fun s => ⟨3 * s.width, 3 * s.height⟩, true⟩

/-- Persistence collaborators of the concrete evaluations: settings and poses
are numbers, written as the payload of an element with the expected tag. -/
def sampleXml : Xml Nat Nat Nat :=
  { settingsWriteXml := fun s => ⟨"qgis3d", s⟩
    settingsReadXml := fun e => e.content
    resolveReferences := fun s => s
    poseWriteXml := fun p => ⟨"camera-pose", p⟩
    poseReadXml := fun _ e => e.content }

/-- State invariant used by `draw`: an engine comes with a scene. -/
def sceneWithEngine (it : Item S P) : Prop :=
  it.mEngine.isSome = true → it.mScene.isSome = true

instance (it : Item S P) : Decidable (sceneWithEngine it) := by
  unfold sceneWithEngine
  exact inferInstance

/-- Target rectangle `r` of `draw`. -/
def targetRect (ctx : QgsLayoutItemRenderContext) (it : Item S P) : QRect :=
  ⟨0, 0, ctx.scale it.size.width, ctx.scale it.size.height⟩

/-- Whether the operation is `readPropertiesFromElement`. -/
def Op.isRead : Op S P X → Bool
  | Op.readPropertiesFromElement _ _ => true
  | _ => false

/-- Whether the engine of the item has a requested capture to deliver. -/
def hasPending (it : Item S P) : Bool :=
  match it.mEngine with
  | some engine => !engine.pending.isEmpty
  | none => false

/-- Bookkeeping for the statements on the cache: given whether a capture was
delivered since the last change of settings, pose or size, the same after
`op` is run on `it`. `setMapSettings`, a `setCameraPose` with a different pose
and a size or position change are changes; a delivery is `imageCaptured`
with a requested capture at hand. -/
def trackDelivered [DecidableEq P] (it : Item S P) (d : Bool) : Op S P X → Bool
  | Op.setMapSettings _ => false
  | Op.setCameraPose p => if it.mCameraPose = p then d else false
  | Op.sizePositionChanged _ => false
  | Op.imageCaptured => d || hasPending it
  | _ => d

/-- The run of `run`, with the bookkeeping of `trackDelivered` next to the item. -/
def runTracked [DecidableEq P] (xml : Xml S P X) :
    Item S P → Bool → List (Op S P X) → Option (Item S P × Bool)
  | it, d, [] => some (it, d)
  | it, d, op :: ops =>
    match step xml it op with
    | some it1 => runTracked xml it1 (trackDelivered it d op) ops
    | none => none

/-- Invariant of the runs without `readPropertiesFromElement`: engine and scene
come together, the scene was built from the current settings and so were the
requested frames, and a cached image was delivered since the last change and
shows the current settings. -/
def cacheInv (it : Item S P) (d : Bool) : Prop :=
  (it.mEngine.isSome = true ↔ it.mScene.isSome = true) ∧
  (∀ e sc, it.mEngine = some e → it.mScene = some sc →
    it.mSettings = some sc.settings ∧ ∀ f ∈ e.pending, f.settings = sc.settings) ∧
  (∀ f, it.mCapturedImage = some f → d = true ∧ it.mSettings = some f.settings)

/-- Invariant of all runs: engine and scene come together, and only with settings. -/
def pairedInv (it : Item S P) : Prop :=
  (it.mEngine.isSome = true ↔ it.mScene.isSome = true) ∧
  (it.mEngine.isSome = true → it.mSettings.isSome = true)

/-! ## Lemmas on the scan of `assignFreeId` -/

theorem scanMaps_nil (heap : Nat → Item S P) (self : Nat) (acc : Int × Bool) :
    scanMaps heap self [] acc = acc := rfl

theorem scanMaps_cons (heap : Nat → Item S P) (self m : Nat) (l : List Nat) (acc : Int × Bool) :
    scanMaps heap self (m :: l) acc =
      scanMaps heap self l
        (if m = self then acc
         else (max acc.1 (heap m).mMapId,
               acc.2 || decide ((heap m).mMapId = (heap self).mMapId))) := rfl

theorem otherIds_nil (heap : Nat → Item S P) (self : Nat) : otherIds heap self [] = [] := rfl

theorem otherIds_cons_self (heap : Nat → Item S P) (self : Nat) (l : List Nat) :
    otherIds heap self (self :: l) = otherIds heap self l := by
  simp [otherIds]

theorem otherIds_cons_ne (heap : Nat → Item S P) (self m : Nat) (l : List Nat) (h : m ≠ self) :
    otherIds heap self (m :: l) = (heap m).mMapId :: otherIds heap self l := by
  simp [otherIds, h]

theorem mem_otherIds (heap : Nat → Item S P) (self : Nat) (l : List Nat) (x : Int) :
    x ∈ otherIds heap self l ↔ ∃ m ∈ l, m ≠ self ∧ (heap m).mMapId = x := by
  simp [otherIds, and_assoc]

/-- The running maximum never decreases and bounds every other id. -/
theorem scanMaps_fst_ge (heap : Nat → Item S P) (self : Nat) (l : List Nat) :
    ∀ acc : Int × Bool, acc.1 ≤ (scanMaps heap self l acc).1 ∧
      ∀ x ∈ otherIds heap self l, x ≤ (scanMaps heap self l acc).1 := by
  induction l with
  | nil => intro acc; simp [scanMaps_nil, otherIds_nil]
  | cons m l ih =>
    intro acc
    rw [scanMaps_cons]
    by_cases h : m = self
    · subst h
      simpa [otherIds_cons_self] using ih acc
    · rw [if_neg h, otherIds_cons_ne heap self m l h]
      obtain ⟨h1, h2⟩ := ih (max acc.1 (heap m).mMapId,
        acc.2 || decide ((heap m).mMapId = (heap self).mMapId))
      simp only at h1
      refine ⟨le_trans (le_max_left _ _) h1, ?_⟩
      intro x hx
      rcases List.mem_cons.1 hx with hx | hx
      · subst hx; exact le_trans (le_max_right _ _) h1
      · exact h2 x hx

/-- The running maximum is the start value or one of the other ids. -/
theorem scanMaps_fst_mem (heap : Nat → Item S P) (self : Nat) (l : List Nat) :
    ∀ acc : Int × Bool, (scanMaps heap self l acc).1 = acc.1 ∨
      (scanMaps heap self l acc).1 ∈ otherIds heap self l := by
  induction l with
  | nil => intro acc; simp [scanMaps_nil]
  | cons m l ih =>
    intro acc
    rw [scanMaps_cons]
    by_cases h : m = self
    · subst h
      simpa [otherIds_cons_self] using ih acc
    · rw [if_neg h, otherIds_cons_ne heap self m l h]
      rcases ih (max acc.1 (heap m).mMapId,
        acc.2 || decide ((heap m).mMapId = (heap self).mMapId)) with h1 | h1
      · simp only at h1
        rcases max_cases acc.1 (heap m).mMapId with ⟨hm, _⟩ | ⟨hm, _⟩
        · left; rw [h1, hm]
        · right; rw [h1, hm]; exact List.mem_cons_self _ _
      · right; exact List.mem_cons_of_mem _ h1

/-- The flag `used` is set exactly when it was set or another item has the id of `this`. -/
theorem scanMaps_snd (heap : Nat → Item S P) (self : Nat) (l : List Nat) :
    ∀ acc : Int × Bool, (scanMaps heap self l acc).2 = true ↔
      (acc.2 = true ∨ (heap self).mMapId ∈ otherIds heap self l) := by
  induction l with
  | nil => intro acc; simp [scanMaps_nil, otherIds_nil]
  | cons m l ih =>
    intro acc
    rw [scanMaps_cons]
    by_cases h : m = self
    · subst h
      simpa [otherIds_cons_self] using ih acc
    · rw [if_neg h, otherIds_cons_ne heap self m l h, ih]
      simp only [Bool.or_eq_true, decide_eq_true_eq, List.mem_cons]
      constructor
      · rintro ((h1 | h1) | h1)
        · exact Or.inl h1
        · exact Or.inr (Or.inl h1.symm)
        · exact Or.inr (Or.inr h1)
      · rintro (h1 | h1 | h1)
        · exact Or.inl (Or.inl h1)
        · exact Or.inl (Or.inr h1.symm)
        · exact Or.inr h1

/-- With the start value `-1` the scan ends with `max( -1, m )` for the maximum `m`
of the other ids. -/
theorem scanMaps_fst_eq (heap : Nat → Item S P) (self : Nat) (l : List Nat) (m : Int)
    (hm : isMaxId (otherIds heap self l) m) :
    (scanMaps heap self l (-1, false)).1 = max (-1) m := by
  obtain ⟨h1, h2⟩ := scanMaps_fst_ge heap self l (-1, false)
  have h3 := scanMaps_fst_mem heap self l (-1, false)
  have h4 := h2 m hm.1
  simp only at h1 h3
  rcases h3 with h3 | h3
  · have := hm.2
    rw [h3] at h4 ⊢
    rw [max_eq_left h4]
  · have h5 := hm.2 _ h3
    have : (scanMaps heap self l (-1, false)).1 = m := le_antisymm h5 h4
    rw [this] at h1 ⊢
    rw [max_eq_right h1]

theorem wrapInt_eq (x : Int) (h1 : INT_MIN ≤ x) (h2 : x ≤ INT_MAX) : wrapInt x = x := by
  unfold wrapInt
  unfold INT_MIN at h1
  unfold INT_MAX at h2
  omega

/-! ## Identity assignment -/

theorem scanMaps_fst_lt_max (heap : Nat → Item S P) (self : Nat) (l : List Nat)
    (hmax : ∀ x ∈ otherIds heap self l, x < INT_MAX) :
    -1 ≤ (scanMaps heap self l (-1, false)).1 ∧ (scanMaps heap self l (-1, false)).1 < INT_MAX := by
  refine ⟨(scanMaps_fst_ge heap self l (-1, false)).1, ?_⟩
  rcases scanMaps_fst_mem heap self l (-1, false) with h | h
  · rw [h]; decide
  · exact hmax _ h

/-- Items other than `this` are left as they are. -/
theorem assignFreeId_other (heap : Nat → Item S P) (self : Nat) (mLayout : Option (List Nat))
    (q : Nat) (hq : q ≠ self) : (assignFreeId heap self mLayout).1 q = heap q := by
  unfold assignFreeId
  cases mLayout with
  | none => rfl
  | some l =>
    simp only
    split <;> simp [Function.update_noteq hq]

/-- Without a collision the id stays and nothing is notified. -/
theorem assignFreeId_unused (heap : Nat → Item S P) (self : Nat) (l : List Nat)
    (h : (heap self).mMapId ∉ otherIds heap self l) :
    ((assignFreeId heap self (some l)).1 self).mMapId = (heap self).mMapId ∧
      (assignFreeId heap self (some l)).2 = [] := by
  have hu : (scanMaps heap self l (-1, false)).2 = false := by
    cases hb : (scanMaps heap self l (-1, false)).2 with
    | false => rfl
    | true =>
      rcases (scanMaps_snd heap self l (-1, false)).1 hb with h1 | h1
      · simp at h1
      · exact absurd h1 h
  simp [assignFreeId, hu, updateToolTip]

/-- With a collision and no overflow the id becomes the scanned maximum plus one and
the model is notified once. -/
theorem assignFreeId_used (heap : Nat → Item S P) (self : Nat) (l : List Nat)
    (h : (heap self).mMapId ∈ otherIds heap self l)
    (hmax : ∀ x ∈ otherIds heap self l, x < INT_MAX) :
    ((assignFreeId heap self (some l)).1 self).mMapId = (scanMaps heap self l (-1, false)).1 + 1 ∧
      (assignFreeId heap self (some l)).2 = [self] := by
  have hu : (scanMaps heap self l (-1, false)).2 = true :=
    (scanMaps_snd heap self l (-1, false)).2 (Or.inr h)
  obtain ⟨h1, h2⟩ := scanMaps_fst_lt_max heap self l hmax
  have hw : wrapInt ((scanMaps heap self l (-1, false)).1 + 1) =
      (scanMaps heap self l (-1, false)).1 + 1 := by
    apply wrapInt_eq
    · unfold INT_MIN; omega
    · unfold INT_MAX at h2 ⊢; omega
  simp [assignFreeId, hu, updateToolTip, hw]

/-- Without overflow the id of `this` after the call is not the id of another item. -/
theorem assignFreeId_fresh (heap : Nat → Item S P) (self : Nat) (l : List Nat)
    (hmax : ∀ x ∈ otherIds heap self l, x < INT_MAX) :
    ((assignFreeId heap self (some l)).1 self).mMapId ∉ otherIds heap self l := by
  by_cases h : (heap self).mMapId ∈ otherIds heap self l
  · rw [(assignFreeId_used heap self l h hmax).1]
    intro hc
    have := (scanMaps_fst_ge heap self l (-1, false)).2 _ hc
    omega
  · rw [(assignFreeId_unused heap self l h).1]
    exact h

/-- C1 (amended). For `assignFreeId` on an item attached to a layout whose other
3D map items all have ids below `INT_MAX`: no other item is modified; when no
other item has the id of this item, the id stays and the layout model is not
notified; when another item has the id of this item, the model is notified
once and the id becomes `max( -1, m ) + 1` for the maximum `m` of the other
ids, which is `m + 1`, with `m` also the maximum of all ids, whenever `-1 ≤ m`. -/
theorem assignFreeId_contract (heap : Nat → Item S P) (self : Nat) (mapsList : List Nat)
    (hmax : ∀ x ∈ otherIds heap self mapsList, x < INT_MAX) :
    (∀ q, q ≠ self → (assignFreeId heap self (some mapsList)).1 q = heap q) ∧
    ((heap self).mMapId ∉ otherIds heap self mapsList →
      ((assignFreeId heap self (some mapsList)).1 self).mMapId = (heap self).mMapId ∧
      (assignFreeId heap self (some mapsList)).2 = []) ∧
    ((heap self).mMapId ∈ otherIds heap self mapsList →
      (assignFreeId heap self (some mapsList)).2 = [self] ∧
      ∀ m, isMaxId (otherIds heap self mapsList) m →
        ((assignFreeId heap self (some mapsList)).1 self).mMapId = max (-1) m + 1 ∧
        (-1 ≤ m →
          ((assignFreeId heap self (some mapsList)).1 self).mMapId = m + 1 ∧
          isMaxId ((heap self).mMapId :: otherIds heap self mapsList) m)) := by
  refine ⟨fun q hq => assignFreeId_other heap self _ q hq,
    fun h => assignFreeId_unused heap self mapsList h, fun h => ?_⟩
  obtain ⟨h1, h2⟩ := assignFreeId_used heap self mapsList h hmax
  refine ⟨h2, fun m hm => ?_⟩
  have h3 := scanMaps_fst_eq heap self mapsList m hm
  rw [h1, h3]
  refine ⟨rfl, fun hle => ⟨by rw [max_eq_right hle], ?_⟩⟩
  refine ⟨List.mem_cons_of_mem _ hm.1, fun x hx => ?_⟩
  rcases List.mem_cons.1 hx with hx | hx
  · subst hx; exact hm.2 _ h
  · exact hm.2 _ hx

/-- Witness of C1 (amended): three items with ids 4, 7, 4 and the call on the first. -/
theorem assignFreeId_contract_witness :
    (∀ x ∈ otherIds (fun n => if n = 1 then sampleItem 7 else sampleItem 4) 0 [0, 1, 2],
        x < INT_MAX) ∧
      (sampleItem 4).mMapId ∈
        otherIds (fun n => if n = 1 then sampleItem 7 else sampleItem 4) 0 [0, 1, 2] ∧
      isMaxId (otherIds (fun n => if n = 1 then sampleItem 7 else sampleItem 4) 0 [0, 1, 2]) 7 ∧
      ((assignFreeId (fun n => if n = 1 then sampleItem 7 else sampleItem 4) 0
        (some [0, 1, 2])).1 0).mMapId = 7 + 1 :=
  ⟨by decide, by decide, by decide,
    ((((assignFreeId_contract (fun n => if n = 1 then sampleItem 7 else sampleItem 4) 0 [0, 1, 2]
      (by decide)).2.2 (by decide)).2 7 (by decide)).2 (by decide)).1⟩

/-- C1 (as stated) fails: two items with id `-5`; the scan starts at `-1`, so the
item gets id `0`, not `( maximum of the other ids ) + 1 = -4`. -/
theorem assignFreeId_negative_ids :
    (∀ x ∈ otherIds (fun _ => sampleItem (-5)) 0 [0, 1], x < INT_MAX) ∧
      (sampleItem (-5)).mMapId ∈ otherIds (fun _ => sampleItem (-5)) 0 [0, 1] ∧
      isMaxId (otherIds (fun _ => sampleItem (-5)) 0 [0, 1]) (-5) ∧
      isMaxId ((sampleItem (-5)).mMapId :: otherIds (fun _ => sampleItem (-5)) 0 [0, 1]) (-5) ∧
      ((assignFreeId (fun _ => sampleItem (-5)) 0 (some [0, 1])).1 0).mMapId = 0 ∧
      ((assignFreeId (fun _ => sampleItem (-5)) 0 (some [0, 1])).1 0).mMapId ≠ -5 + 1 := by
  decide

/-- C2 (amended). When the other 3D map items of the layout have pairwise distinct
ids, all below `INT_MAX`, then after `assignFreeId` on an item any two distinct
items among the items of the layout and this item have distinct ids; no other
item is modified, and this item is reassigned when it shared its id. -/
theorem assignFreeId_no_collision (heap : Nat → Item S P) (self : Nat) (mapsList : List Nat)
    (hdist : ∀ a ∈ mapsList, ∀ b ∈ mapsList, a ≠ self → b ≠ self → a ≠ b →
      (heap a).mMapId ≠ (heap b).mMapId)
    (hmax : ∀ x ∈ otherIds heap self mapsList, x < INT_MAX) :
    (∀ a ∈ self :: mapsList, ∀ b ∈ self :: mapsList, a ≠ b →
      ((assignFreeId heap self (some mapsList)).1 a).mMapId ≠
        ((assignFreeId heap self (some mapsList)).1 b).mMapId) ∧
    (∀ q, q ≠ self → (assignFreeId heap self (some mapsList)).1 q = heap q) ∧
    ((heap self).mMapId ∈ otherIds heap self mapsList →
      ((assignFreeId heap self (some mapsList)).1 self).mMapId ≠ (heap self).mMapId) := by
  have hfresh := assignFreeId_fresh heap self mapsList hmax
  have hoth := fun q hq => assignFreeId_other heap self (some mapsList) q hq
  refine ⟨?_, hoth, fun h hc => ?_⟩
  · intro a ha b hb hab
    by_cases has : a = self
    · subst has
      have hb1 : b ≠ a := fun h => hab h.symm
      have hbm : b ∈ mapsList := by
        rcases List.mem_cons.1 hb with h | h
        · exact absurd h hb1
        · exact h
      rw [hoth b hb1]
      intro hc
      exact hfresh ((mem_otherIds heap a mapsList _).2 ⟨b, hbm, hb1, hc.symm⟩)
    · have ham : a ∈ mapsList := by
        rcases List.mem_cons.1 ha with h | h
        · exact absurd h has
        · exact h
      by_cases hbs : b = self
      · subst hbs
        rw [hoth a has]
        intro hc
        exact hfresh ((mem_otherIds heap b mapsList _).2 ⟨a, ham, has, hc⟩)
      · have hbm : b ∈ mapsList := by
          rcases List.mem_cons.1 hb with h | h
          · exact absurd h hbs
          · exact h
        rw [hoth a has, hoth b hbs]
        exact hdist a ham b hbm has hbs hab
  · rw [hc] at hfresh
    exact hfresh h

/-- Witness of C2 (amended): ids 4, 7, 4 and the call on the first item. -/
theorem assignFreeId_no_collision_witness :
    (∀ a ∈ [0, 1, 2], ∀ b ∈ [0, 1, 2], a ≠ 0 → b ≠ 0 → a ≠ b →
        ((fun n => if n = 1 then sampleItem 7 else sampleItem 4) a).mMapId ≠
          ((fun n => if n = 1 then sampleItem 7 else sampleItem 4) b).mMapId) ∧
      (∀ x ∈ otherIds (fun n => if n = 1 then sampleItem 7 else sampleItem 4) 0 [0, 1, 2],
        x < INT_MAX) ∧
      ((assignFreeId (fun n => if n = 1 then sampleItem 7 else sampleItem 4) 0
          (some [0, 1, 2])).1 0).mMapId ≠
        ((assignFreeId (fun n => if n = 1 then sampleItem 7 else sampleItem 4) 0
          (some [0, 1, 2])).1 2).mMapId :=
  ⟨by decide, by decide,
    (assignFreeId_no_collision (fun n => if n = 1 then sampleItem 7 else sampleItem 4) 0 [0, 1, 2]
      (by decide) (by decide)).1 0 (by decide) 2 (by decide) (by decide)⟩

/-- C2 (as stated) fails: all ids are `int` values, the other items have the
distinct ids `INT_MAX` and `INT_MIN`, this item has `INT_MAX`; `maxId + 1`
wraps to `INT_MIN`, the id of the third item. -/
theorem assignFreeId_overflow_collides :
    (∀ a ∈ [0, 1, 2],
        inIntRange ((fun n => if n = 2 then sampleItem INT_MIN else sampleItem INT_MAX) a).mMapId) ∧
      (∀ a ∈ [0, 1, 2], ∀ b ∈ [0, 1, 2], a ≠ 0 → b ≠ 0 → a ≠ b →
        ((fun n => if n = 2 then sampleItem INT_MIN else sampleItem INT_MAX) a).mMapId ≠
          ((fun n => if n = 2 then sampleItem INT_MIN else sampleItem INT_MAX) b).mMapId) ∧
      (0 : Nat) ≠ 2 ∧
      ((assignFreeId (fun n => if n = 2 then sampleItem INT_MIN else sampleItem INT_MAX) 0
        (some [0, 1, 2])).1 0).mMapId =
      ((assignFreeId (fun n => if n = 2 then sampleItem INT_MIN else sampleItem INT_MAX) 0
        (some [0, 1, 2])).1 2).mMapId := by
  decide

/-! ## Drawing -/

/-- C9. With an engine never lacking its scene, `draw` returns; entered with the
latch clear it returns with the latch clear on every path, and entered with
the latch set it performs no synchronous capture and leaves the latch set. -/
theorem draw_latch (ctx : QgsLayoutItemRenderContext) (it : Item S P)
    (hwf : sceneWithEngine it) :
    ∃ r, draw ctx it = some r ∧
      (it.mDrawing = false → r.item.mDrawing = false) ∧
      (it.mDrawing = true → r.syncCaptures = 0 ∧ r.item.mDrawing = true) := by
  unfold sceneWithEngine at hwf
  unfold draw
  cases hS : it.mSettings with
  | none => simp
  | some s =>
    cases hI : it.mCapturedImage with
    | some img => simp
    | none =>
      cases hE : it.mEngine with
      | none =>
        by_cases hp : ctx.isPreviewRender = true
        · by_cases hr : ctx.sceneReadyOnCreation = true <;>
            simp [hI, hp, hr, onSceneStateChanged, requestCaptureImage]
        · by_cases hd : it.mDrawing = true <;> simp [hp, hd]
      | some e =>
        have hsc := hwf (by simp [hE])
        cases hSc : it.mScene with
        | none => simp [hSc] at hsc
        | some sc =>
          by_cases hp : ctx.isPreviewRender = true
          · by_cases hr : sc.ready = true <;>
              simp [hI, hE, hSc, hp, hr, onSceneStateChanged, requestCaptureImage]
          · by_cases hd : it.mDrawing = true <;> simp [hE, hSc, hp, hd]

/-- Witness of C9: a configured item without cached image, drawn in final mode. -/
theorem draw_latch_witness :
    sceneWithEngine ({ sampleItem 1 with mSettings := some 5 } : Item Nat Nat) ∧
      ∃ r, draw finalCtx ({ sampleItem 1 with mSettings := some 5 } : Item Nat Nat) = some r ∧
        (({ sampleItem 1 with mSettings := some 5 } : Item Nat Nat).mDrawing = false →
          r.item.mDrawing = false) ∧
        (({ sampleItem 1 with mSettings := some 5 } : Item Nat Nat).mDrawing = true →
          r.syncCaptures = 0 ∧ r.item.mDrawing = true) :=
  ⟨by decide, draw_latch finalCtx { sampleItem 1 with mSettings := some 5 } (by decide)⟩

/-- C10 fails on the code: a configured item without cached image, drawn in final
mode while the latch is set; the painter receives `save` and nothing else. -/
theorem draw_reentrant_unbalanced :
    (draw finalCtx ({ sampleItem 1 with mSettings := some 5, mDrawing := true } : Item Nat Nat)).map
        (fun r => r.painter) = some [PaintOp.save] ∧
      (draw finalCtx ({ sampleItem 1 with mSettings := some 5 } : Item Nat Nat)).map
        (fun r => r.painter.count PaintOp.restore) = some 1 := by
  decide

/-- C4 (as stated) fails: settings configured, final mode, no cached image and the
latch set; `draw` returns after `save` alone, without an image painted and
without a capture. -/
theorem draw_final_latch_set_paints_nothing :
    ({ sampleItem 2 with mSettings := some 8, mDrawing := true } : Item Nat Nat).mSettings.isSome
        = true ∧
      finalCtx.isPreviewRender = false ∧
      (draw finalCtx ({ sampleItem 2 with mSettings := some 8, mDrawing := true } : Item Nat Nat)).map
        (fun r => (r.painter, r.syncCaptures)) = some ([PaintOp.save], 0) := by
  decide

/-- C4 (amended). With settings configured, in final mode, and with the latch
clear or a cached image at hand, `draw` returns after exactly `save`, one
`drawImage` of a non-null image into the target rectangle, `restore`: the image
is the cached one when there is one, and else the result of the (second)
synchronous capture of the scene; no text is painted. -/
theorem draw_final_paints_image (ctx : QgsLayoutItemRenderContext) (it : Item S P) (s : S)
    (hs : it.mSettings = some s) (hfinal : ctx.isPreviewRender = false)
    (hwf : sceneWithEngine it)
    (hl : it.mDrawing = false ∨ it.mCapturedImage.isSome = true) :
    ∃ r img, draw ctx it = some r ∧ img.isSome = true ∧
      r.painter = [PaintOp.save, PaintOp.drawImage (targetRect ctx it) img, PaintOp.restore] ∧
      (it.mCapturedImage.isSome = true → img = it.mCapturedImage ∧ r.syncCaptures = 0) ∧
      (it.mCapturedImage = none → r.syncCaptures = 2 ∧
        ∃ e sc, r.item.mEngine = some e ∧ r.item.mScene = some sc ∧
          img = captureSceneImage e sc) := by
  unfold sceneWithEngine at hwf
  unfold draw targetRect
  cases hI : it.mCapturedImage with
  | some img => simp [hs]
  | none =>
    have hd : it.mDrawing = false := by
      rcases hl with h | h
      · exact h
      · simp [hI] at h
    cases hE : it.mEngine with
    | none => simp [hs, hfinal, hd, captureSceneImage]
    | some e =>
      have hsc := hwf (by simp [hE])
      cases hSc : it.mScene with
      | none => simp [hSc] at hsc
      | some sc => simp [hs, hE, hSc, hfinal, hd, captureSceneImage]

/-- Witness of C4 (amended): a configured item with the latch clear, final mode. -/
theorem draw_final_paints_image_witness :
    ({ sampleItem 1 with mSettings := some 5 } : Item Nat Nat).mSettings = some 5 ∧
      finalCtx.isPreviewRender = false ∧
      sceneWithEngine ({ sampleItem 1 with mSettings := some 5 } : Item Nat Nat) ∧
      ∃ r img, draw finalCtx ({ sampleItem 1 with mSettings := some 5 } : Item Nat Nat) = some r ∧
        img.isSome = true ∧
        r.painter = [PaintOp.save,
          PaintOp.drawImage
            (targetRect finalCtx ({ sampleItem 1 with mSettings := some 5 } : Item Nat Nat)) img,
          PaintOp.restore] ∧
        ((({ sampleItem 1 with mSettings := some 5 } : Item Nat Nat).mCapturedImage.isSome = true →
          img = ({ sampleItem 1 with mSettings := some 5 } : Item Nat Nat).mCapturedImage ∧
            r.syncCaptures = 0)) ∧
        (({ sampleItem 1 with mSettings := some 5 } : Item Nat Nat).mCapturedImage = none →
          r.syncCaptures = 2 ∧
          ∃ e sc, r.item.mEngine = some e ∧ r.item.mScene = some sc ∧
            img = captureSceneImage e sc) :=
  ⟨rfl, rfl, by decide,
    draw_final_paints_image finalCtx { sampleItem 1 with mSettings := some 5 } 5 rfl rfl
      (by decide) (Or.inl rfl)⟩

/-! ## Camera pose -/

/-- C7. `setCameraPose( p )` with `p` equal to the current pose leaves the whole
item state unchanged, the count of redraw requests included; calling it twice
gives the state of calling it once; with a different pose it stores the pose,
clears the cached image and requests exactly one redraw, all other members
staying as they are. -/
theorem setCameraPose_contract [DecidableEq P] (it : Item S P) (p : P) :
    (it.mCameraPose = p → setCameraPose p it = it) ∧
    setCameraPose p (setCameraPose p it) = setCameraPose p it ∧
    (it.mCameraPose ≠ p →
      setCameraPose p it =
        { it with mCameraPose := p, mCapturedImage := none,
                  updateRequests := it.updateRequests + 1 }) := by
  refine ⟨fun h => by simp [setCameraPose, h], ?_, fun h => by simp [setCameraPose, h]⟩
  by_cases h : it.mCameraPose = p
  · simp [setCameraPose, h]
  · simp [setCameraPose, h]

/-- Witness of C7: a cached image survives `setCameraPose` with the current pose
and is cleared, with one redraw request, by a different pose. -/
theorem setCameraPose_contract_witness :
    setCameraPose 0 ({ sampleItem 1 with mCapturedImage := some ⟨5, some 0, ⟨30, 30⟩⟩ } : Item Nat Nat)
        = { sampleItem 1 with mCapturedImage := some ⟨5, some 0, ⟨30, 30⟩⟩ } ∧
      setCameraPose 4 ({ sampleItem 1 with mCapturedImage := some ⟨5, some 0, ⟨30, 30⟩⟩ } : Item Nat Nat)
        = { sampleItem 1 with mCameraPose := 4, mCapturedImage := none, updateRequests := 1 } :=
  ⟨(setCameraPose_contract _ 0).1 rfl, (setCameraPose_contract _ 4).2.2 (by decide)⟩

/-! ## Persistence -/

/-- C5 (as stated) fails: an item with settings `7` and pose `3` reads an element
without children; it keeps its settings and its pose, which is not the default. -/
theorem readProperties_keeps_settings :
    firstChildElement ([] : List (QDomElement Nat)) "qgis3d" = none ∧
      firstChildElement ([] : List (QDomElement Nat)) "camera-pose" = none ∧
      (readPropertiesFromElement sampleXml true []
        ({ sampleItem 1 with mSettings := some 7, mCameraPose := 3 } : Item Nat Nat)).2.mSettings
          = some 7 ∧
      (readPropertiesFromElement sampleXml true []
        ({ sampleItem 1 with mSettings := some 7, mCameraPose := 3 } : Item Nat Nat)).2.mCameraPose
          = 3 ∧
      (3 : Nat) ≠ (newItem 1 ⟨10, 10⟩ 0 : Item Nat Nat).mCameraPose := by
  decide

/-- C5 (amended). `readPropertiesFromElement` applied to an element with neither a
`qgis3d` child nor a `camera-pose` child returns true and leaves the item as it
is; a newly constructed item so stays without settings and with the default
pose, and an item without settings is drawn as `save`, the text
"Scene not set", `restore`. -/
theorem readProperties_absent (xml : Xml S P X) (hasProject : Bool)
    (element : List (QDomElement X)) (it : Item S P)
    (h1 : firstChildElement element "qgis3d" = none)
    (h2 : firstChildElement element "camera-pose" = none) :
    readPropertiesFromElement xml hasProject element it = (true, it) ∧
    (∀ mapId size poseDefault,
      (readPropertiesFromElement xml hasProject element
        (newItem mapId size poseDefault : Item S P)).2.mSettings = none ∧
      (readPropertiesFromElement xml hasProject element
        (newItem mapId size poseDefault : Item S P)).2.mCameraPose = poseDefault) ∧
    (it.mSettings = none → ∀ ctx,
      draw ctx (readPropertiesFromElement xml hasProject element it).2 =
        some ⟨it, [PaintOp.save, PaintOp.drawText (targetRect ctx it) "Scene not set",
          PaintOp.restore], 0⟩) := by
  have h : ∀ it : Item S P, readPropertiesFromElement xml hasProject element it = (true, it) := by
    intro it
    simp [readPropertiesFromElement, h1, h2]
  refine ⟨h it, fun mapId size poseDefault => ?_, fun hs ctx => ?_⟩
  · rw [h]; exact ⟨rfl, rfl⟩
  · rw [h]; simp [draw, hs, targetRect]

/-- Witness of C5 (amended): a new item reads an element whose only child is named `other`. -/
theorem readProperties_absent_witness :
    firstChildElement [(⟨"other", 1⟩ : QDomElement Nat)] "qgis3d" = none ∧
      firstChildElement [(⟨"other", 1⟩ : QDomElement Nat)] "camera-pose" = none ∧
      readPropertiesFromElement sampleXml true [⟨"other", 1⟩] (sampleItem 1) =
        (true, sampleItem 1) :=
  ⟨by decide, by decide,
    (readProperties_absent sampleXml true [⟨"other", 1⟩] (sampleItem 1) (by decide)
      (by decide)).1⟩

/-- C6 (as stated) fails: the element already has a `camera-pose` child with pose
`3` when the item, with settings `5` and pose `9`, is written to it; the
collaborators are inverse to each other and emit the expected tag names. The
write appends the two children, and the read on a new item takes the first
`camera-pose` child: the pose read is `3`, not `9`. -/
theorem roundtrip_reads_earlier_child :
    (∀ s, sampleXml.settingsReadXml (sampleXml.settingsWriteXml s) = s) ∧
      (∀ p0 p, sampleXml.poseReadXml p0 (sampleXml.poseWriteXml p) = p) ∧
      (∀ s, (sampleXml.settingsWriteXml s).tagName = "qgis3d") ∧
      (∀ p, (sampleXml.poseWriteXml p).tagName = "camera-pose") ∧
      (∀ s, sampleXml.resolveReferences s = s) ∧
      writePropertiesToElement sampleXml
          ({ sampleItem 1 with mSettings := some 5, mCameraPose := 9 } : Item Nat Nat)
          [⟨"camera-pose", 3⟩] =
        (true, [⟨"camera-pose", 3⟩, ⟨"qgis3d", 5⟩, ⟨"camera-pose", 9⟩]) ∧
      (readPropertiesFromElement sampleXml true
        (writePropertiesToElement sampleXml
          ({ sampleItem 1 with mSettings := some 5, mCameraPose := 9 } : Item Nat Nat)
          [⟨"camera-pose", 3⟩]).2 (newItem 1 ⟨10, 10⟩ 0)).2.mCameraPose = 3 ∧
      (3 : Nat) ≠ 9 :=
  ⟨fun _ => rfl, fun _ _ => rfl, fun _ => rfl, fun _ => rfl, fun _ => rfl, by decide, by decide,
    by decide⟩

/-- C6 (amended). For an item with settings `s` and pose `p`, and an element without `qgis3d`
and `camera-pose` children: `writePropertiesToElement` returns true and appends
exactly the settings element followed by the pose element, and
`readPropertiesFromElement` of the written element on a newly constructed item
returns true and yields settings equivalent to `s` and the pose `p`; provided
the collaborators emit elements named `qgis3d` and `camera-pose`, reading what
was written gives equivalent settings and the same pose, and reference
resolution keeps settings equivalent. -/
theorem write_read_roundtrip (xml : Xml S P X) (equiv : S → S → Prop)
    (hS : ∀ s, equiv (xml.settingsReadXml (xml.settingsWriteXml s)) s)
    (hP : ∀ p0 p, xml.poseReadXml p0 (xml.poseWriteXml p) = p)
    (hnS : ∀ s, (xml.settingsWriteXml s).tagName = "qgis3d")
    (hnP : ∀ p, (xml.poseWriteXml p).tagName = "camera-pose")
    (hR : ∀ a b, equiv a b → equiv (xml.resolveReferences a) b)
    (it : Item S P) (s : S) (hs : it.mSettings = some s)
    (element : List (QDomElement X))
    (h1 : firstChildElement element "qgis3d" = none)
    (h2 : firstChildElement element "camera-pose" = none)
    (hasProject : Bool) (mapId : Int) (size : QSize) (poseDefault : P) :
    writePropertiesToElement xml it element =
      (true, element ++ [xml.settingsWriteXml s, xml.poseWriteXml it.mCameraPose]) ∧
    (readPropertiesFromElement xml hasProject (writePropertiesToElement xml it element).2
      (newItem mapId size poseDefault)).1 = true ∧
    (∃ s', (readPropertiesFromElement xml hasProject (writePropertiesToElement xml it element).2
        (newItem mapId size poseDefault)).2.mSettings = some s' ∧ equiv s' s) ∧
    (readPropertiesFromElement xml hasProject (writePropertiesToElement xml it element).2
      (newItem mapId size poseDefault)).2.mCameraPose = it.mCameraPose := by
  have hw : writePropertiesToElement xml it element =
      (true, element ++ [xml.settingsWriteXml s, xml.poseWriteXml it.mCameraPose]) := by
    simp [writePropertiesToElement, hs]
  have hne : ("qgis3d" : String) ≠ "camera-pose" := by decide
  have f1 : firstChildElement (element ++ [xml.settingsWriteXml s, xml.poseWriteXml it.mCameraPose])
      "qgis3d" = some (xml.settingsWriteXml s) := by
    unfold firstChildElement at *
    rw [List.find?_append, h1]
    simp [List.find?, hnS]
  have f2 : firstChildElement (element ++ [xml.settingsWriteXml s, xml.poseWriteXml it.mCameraPose])
      "camera-pose" = some (xml.poseWriteXml it.mCameraPose) := by
    unfold firstChildElement at *
    rw [List.find?_append, h2]
    simp [List.find?, hnS, hnP, hne]
  rw [hw]
  refine ⟨rfl, rfl, ?_, ?_⟩
  · cases hasProject with
    | false =>
      exact ⟨xml.settingsReadXml (xml.settingsWriteXml s),
        by simp [readPropertiesFromElement, f1, f2], hS s⟩
    | true =>
      exact ⟨xml.resolveReferences (xml.settingsReadXml (xml.settingsWriteXml s)),
        by simp [readPropertiesFromElement, f1, f2], hR _ _ (hS s)⟩
  · simp [readPropertiesFromElement, f1, f2, hP]

/-- Witness of C6 (amended): settings `5` and pose `9`, written after an unrelated child. -/
theorem write_read_roundtrip_witness :
    firstChildElement [(⟨"LayoutObject", 0⟩ : QDomElement Nat)] "qgis3d" = none ∧
      firstChildElement [(⟨"LayoutObject", 0⟩ : QDomElement Nat)] "camera-pose" = none ∧
      (readPropertiesFromElement sampleXml true
        (writePropertiesToElement sampleXml
          ({ sampleItem 1 with mSettings := some 5, mCameraPose := 9 } : Item Nat Nat)
          [⟨"LayoutObject", 0⟩]).2 (newItem 1 ⟨10, 10⟩ 0)).2.mCameraPose = 9 :=
  ⟨by decide, by decide,
    (write_read_roundtrip sampleXml Eq (fun _ => rfl) (fun _ _ => rfl) (fun _ => rfl)
      (fun _ => rfl) (fun _ _ h => h)
      { sampleItem 1 with mSettings := some 5, mCameraPose := 9 } 5 rfl
      [⟨"LayoutObject", 0⟩] (by decide) (by decide) true 1 ⟨10, 10⟩ 0).2.2.2⟩

/-! ## Runs of operations -/

theorem draw_cacheInv (ctx : QgsLayoutItemRenderContext) (it : Item S P) (d : Bool)
    (h : cacheInv it d) : ∃ r, draw ctx it = some r ∧ cacheInv r.item d := by
  obtain ⟨hp, hs, hc⟩ := h
  unfold draw
  cases hS : it.mSettings with
  | none => exact ⟨_, rfl, hp, hs, hc⟩
  | some s =>
    cases hI : it.mCapturedImage with
    | some img => exact ⟨_, rfl, hp, hs, hc⟩
    | none =>
      cases hE : it.mEngine with
      | none =>
        by_cases hpr : ctx.isPreviewRender = true
        · by_cases hr : ctx.sceneReadyOnCreation = true <;>
            simp [cacheInv, hI, hS, hpr, hr, onSceneStateChanged, requestCaptureImage]
        · by_cases hd : it.mDrawing = true <;> simp [cacheInv, hI, hS, hpr, hd]
      | some e =>
        cases hSc : it.mScene with
        | none => simp [hE, hSc] at hp
        | some sc =>
          obtain ⟨h1, h2⟩ := hs e sc hE hSc
          rw [hS] at h1
          by_cases hsz : e.size = ctx.toPixels it.size <;>
          by_cases hpr : ctx.isPreviewRender = true
          · by_cases hr : sc.ready = true <;>
              simp [cacheInv, hI, hS, hE, hSc, hpr, hr, hsz, onSceneStateChanged,
                requestCaptureImage, h1] <;>
              first
                | exact h2
                | (intro f hf; rcases hf with hf | hf
                   · exact h2 f hf
                   · rw [hf])
          · by_cases hd : it.mDrawing = true <;>
              simp [cacheInv, hI, hS, hE, hSc, hpr, hd, hsz, h1] <;> exact h2
          · by_cases hr : sc.ready = true <;>
              simp [cacheInv, hI, hS, hE, hSc, hpr, hr, hsz, onSceneStateChanged,
                requestCaptureImage, h1] <;>
              first
                | exact h2
                | (intro f hf; rcases hf with hf | hf
                   · exact h2 f hf
                   · rw [hf])
          · by_cases hd : it.mDrawing = true <;>
              simp [cacheInv, hI, hS, hE, hSc, hpr, hd, hsz, h1] <;> exact h2

theorem sceneStateChanged_cacheInv (ready : Bool) (it : Item S P) (d : Bool)
    (h : cacheInv it d) : ∃ it1, sceneStateChanged ready it = some it1 ∧ cacheInv it1 d := by
  obtain ⟨hp, hs, hc⟩ := h
  unfold sceneStateChanged
  cases hSc : it.mScene with
  | none => exact ⟨_, rfl, hp, hs, hc⟩
  | some sc =>
    cases hE : it.mEngine with
    | none => simp [hE, hSc] at hp
    | some e =>
      obtain ⟨h1, h2⟩ := hs e sc hE hSc
      cases hI : it.mCapturedImage with
      | some img =>
        have := hc img hI
        simp [cacheInv, onSceneStateChanged, hI, hE, h1]
        exact ⟨h2, this.1, Option.some.inj (h1.symm.trans this.2)⟩
      | none =>
        by_cases hr : ready = true
        · simp [cacheInv, onSceneStateChanged, hI, hE, hr, requestCaptureImage, h1]
          intro f hf
          rcases hf with hf | hf
          · exact h2 f hf
          · rw [hf]
        · simp [cacheInv, onSceneStateChanged, hI, hE, hr, h1]
          exact h2

theorem deliverCapture_cacheInv (it : Item S P) (d : Bool) (h : cacheInv it d) :
    cacheInv (deliverCapture it) (d || hasPending it) := by
  obtain ⟨hp, hs, hc⟩ := h
  cases hE : it.mEngine with
  | none =>
    have e1 : deliverCapture it = it := by simp [deliverCapture, hE]
    rw [e1]
    refine ⟨hp, hs, fun f hf => ?_⟩
    have := hc f hf
    simp [this.1, this.2]
  | some e =>
    cases hpe : e.pending with
    | nil =>
      have e1 : deliverCapture it = it := by simp [deliverCapture, hE, hpe]
      rw [e1]
      refine ⟨hp, hs, fun f hf => ?_⟩
      have := hc f hf
      simp [this.1, this.2]
    | cons fr rest =>
      cases hSc : it.mScene with
      | none => simp [hE, hSc] at hp
      | some sc =>
        obtain ⟨h1, h2⟩ := hs e sc hE hSc
        have h3 : fr.settings = sc.settings := h2 fr (by rw [hpe]; exact List.mem_cons_self _ _)
        have h4 : ∀ f ∈ rest, f.settings = sc.settings :=
          fun f hf => h2 f (by rw [hpe]; exact List.mem_cons_of_mem _ hf)
        simp [cacheInv, deliverCapture, hasPending, onImageCaptured, hE, hpe, hSc, h1, h3]
        exact h4
/-- One operation other than `readPropertiesFromElement` keeps `cacheInv`. -/
theorem step_cacheInv [DecidableEq P] (xml : Xml S P X) (it : Item S P) (d : Bool)
    (op : Op S P X) (hop : op.isRead = false) (h : cacheInv it d) :
    ∃ it1, step xml it op = some it1 ∧ cacheInv it1 (trackDelivered it d op) := by
  cases op with
  | setMapSettings s =>
    exact ⟨_, rfl, by simp [setMapSettings], by simp [setMapSettings], by simp [setMapSettings]⟩
  | setCameraPose p =>
    refine ⟨_, rfl, ?_⟩
    by_cases hp : it.mCameraPose = p
    · simpa [setCameraPose, trackDelivered, hp] using h
    · obtain ⟨h1, h2, _⟩ := h
      simp only [setCameraPose, trackDelivered, hp, if_false]
      exact ⟨h1, h2, by simp⟩
  | sizePositionChanged sz =>
    obtain ⟨h1, h2, _⟩ := h
    exact ⟨_, rfl, h1, h2, by simp [sizePositionChanged, onSizePositionChanged]⟩
  | refresh =>
    obtain ⟨h1, h2, _⟩ := h
    exact ⟨_, rfl, h1, h2, by simp [refresh]⟩
  | readPropertiesFromElement hp el => simp [Op.isRead] at hop
  | draw ctx =>
    obtain ⟨r, hr, hinv⟩ := draw_cacheInv ctx it d h
    exact ⟨r.item, by simp [step, hr], hinv⟩
  | imageCaptured => exact ⟨_, rfl, deliverCapture_cacheInv it d h⟩
  | sceneStateChanged b => exact sceneStateChanged_cacheInv b it d h

/-- A run without `readPropertiesFromElement` from a state with `cacheInv` ends, in
a state with `cacheInv`; the tracked run and the plain run agree on the item. -/
theorem runTracked_cacheInv [DecidableEq P] (xml : Xml S P X) (ops : List (Op S P X)) :
    ∀ (it : Item S P) (d : Bool), (∀ op ∈ ops, op.isRead = false) → cacheInv it d →
      ∃ it1 d1, runTracked xml it d ops = some (it1, d1) ∧ run xml it ops = some it1 ∧
        cacheInv it1 d1 := by
  induction ops with
  | nil => intro it d _ h; exact ⟨it, d, rfl, rfl, h⟩
  | cons op ops ih =>
    intro it d hno h
    obtain ⟨it1, hs, h1⟩ := step_cacheInv xml it d op (hno op (List.mem_cons_self _ _)) h
    obtain ⟨it2, d2, hr, hr2, h2⟩ :=
      ih it1 (trackDelivered it d op) (fun o ho => hno o (List.mem_cons_of_mem _ ho)) h1
    exact ⟨it2, d2, by simp [runTracked, hs, hr], by simp [run, hs, hr2], h2⟩

theorem newItem_cacheInv (mapId : Int) (size : QSize) (poseDefault : P) :
    cacheInv (newItem mapId size poseDefault : Item S P) false := by
  simp [cacheInv, newItem]

/-- C3 (amended). Every sequence of `setMapSettings`, `setCameraPose`, size or
position changes, `refresh`, `draw`, scene state changes and capture
deliveries, run on a newly constructed item, ends; and whenever the cached
image is then non-null, a requested capture was delivered (`onImageCaptured`)
after the last `setMapSettings`, pose-changing `setCameraPose` and size or
position change, and the image shows the current settings. -/
theorem cached_image_delivered_after_last_change [DecidableEq P] (xml : Xml S P X)
    (mapId : Int) (size : QSize) (poseDefault : P) (ops : List (Op S P X))
    (hno : ∀ op ∈ ops, op.isRead = false) :
    ∃ it d, runTracked xml (newItem mapId size poseDefault) false ops = some (it, d) ∧
      run xml (newItem mapId size poseDefault) ops = some it ∧
      ∀ f, it.mCapturedImage = some f → d = true ∧ it.mSettings = some f.settings := by
  obtain ⟨it, d, h1, h2, h3⟩ :=
    runTracked_cacheInv xml ops (newItem mapId size poseDefault) false hno
      (newItem_cacheInv mapId size poseDefault)
  exact ⟨it, d, h1, h2, h3.2.2⟩

/-- Witness of C3 (amended): settings, a preview draw, the scene gets ready and a
capture is requested, the capture is delivered. -/
theorem cached_image_delivered_after_last_change_witness :
    (∀ op ∈ ([Op.setMapSettings (some 5), Op.draw previewCtx, Op.sceneStateChanged true,
          Op.imageCaptured] :
        List (Op Nat Nat Nat)), op.isRead = false) ∧
      ∃ it d, runTracked sampleXml (newItem 1 ⟨10, 10⟩ 0) false
          [Op.setMapSettings (some 5), Op.draw previewCtx, Op.sceneStateChanged true,
          Op.imageCaptured] = some (it, d) ∧
        run sampleXml (newItem 1 ⟨10, 10⟩ 0)
          [Op.setMapSettings (some 5), Op.draw previewCtx, Op.sceneStateChanged true,
          Op.imageCaptured] = some it ∧
        ∀ f, it.mCapturedImage = some f → d = true ∧ it.mSettings = some f.settings :=
  ⟨by decide,
    cached_image_delivered_after_last_change sampleXml 1 ⟨10, 10⟩ 0
      [Op.setMapSettings (some 5), Op.draw previewCtx, Op.sceneStateChanged true,
          Op.imageCaptured] (by decide)⟩

/-- C3 (as stated) fails: settings are set, a preview draw builds the scene at pose
`0`, the scene gets ready and a capture is requested, the pose is changed to
`9`, then the requested capture is delivered; the cached image is non-null
and shows pose `0`. -/
theorem stale_capture_delivered :
    (run sampleXml (newItem 1 ⟨10, 10⟩ 0)
        [Op.setMapSettings (some 5), Op.draw previewCtx, Op.sceneStateChanged true,
          Op.setCameraPose 9, Op.imageCaptured]).map
      (fun it => (it.mCapturedImage, it.mCameraPose)) =
        some (some ⟨5, some 0, ⟨30, 30⟩⟩, 9) ∧
      (some (0 : Nat)) ≠ some 9 := by
  decide

theorem draw_pairedInv (ctx : QgsLayoutItemRenderContext) (it : Item S P)
    (h : pairedInv it) : ∃ r, draw ctx it = some r ∧ pairedInv r.item := by
  obtain ⟨hp, hs⟩ := h
  unfold draw
  cases hS : it.mSettings with
  | none => exact ⟨_, rfl, hp, hs⟩
  | some s =>
    cases hI : it.mCapturedImage with
    | some img => exact ⟨_, rfl, hp, hs⟩
    | none =>
      cases hE : it.mEngine with
      | none =>
        by_cases hpr : ctx.isPreviewRender = true
        · by_cases hr : ctx.sceneReadyOnCreation = true <;>
            simp [pairedInv, hI, hpr, hr, onSceneStateChanged, requestCaptureImage]
        · by_cases hd : it.mDrawing = true <;> simp [pairedInv, hpr, hd]
      | some e =>
        cases hSc : it.mScene with
        | none => simp [hE, hSc] at hp
        | some sc =>
          by_cases hpr : ctx.isPreviewRender = true
          · by_cases hr : sc.ready = true <;>
              simp [pairedInv, hI, hS, hE, hSc, hpr, hr, onSceneStateChanged, requestCaptureImage]
          · by_cases hd : it.mDrawing = true <;> simp [pairedInv, hS, hE, hSc, hpr, hd]

theorem sceneStateChanged_pairedInv (ready : Bool) (it : Item S P) (h : pairedInv it) :
    ∃ it1, sceneStateChanged ready it = some it1 ∧ pairedInv it1 := by
  obtain ⟨hp, hs⟩ := h
  unfold sceneStateChanged
  cases hSc : it.mScene with
  | none => exact ⟨_, rfl, hp, hs⟩
  | some sc =>
    cases hE : it.mEngine with
    | none => simp [hE, hSc] at hp
    | some e =>
      have hs1 := hs (by simp [hE])
      cases hI : it.mCapturedImage with
      | some img => simp [pairedInv, onSceneStateChanged, hI, hE, hs1]
      | none =>
        by_cases hr : ready = true
        · simp [pairedInv, onSceneStateChanged, hI, hE, hr, requestCaptureImage, hs1]
        · simp [pairedInv, onSceneStateChanged, hI, hE, hr, hs1]

theorem deliverCapture_pairedInv (it : Item S P) (h : pairedInv it) :
    pairedInv (deliverCapture it) := by
  obtain ⟨hp, hs⟩ := h
  cases hE : it.mEngine with
  | none =>
    have e1 : deliverCapture it = it := by simp [deliverCapture, hE]
    rw [e1]; exact ⟨hp, hs⟩
  | some e =>
    cases hpe : e.pending with
    | nil =>
      have e1 : deliverCapture it = it := by simp [deliverCapture, hE, hpe]
      rw [e1]; exact ⟨hp, hs⟩
    | cons fr rest =>
      have h1 := hs (by simp [hE])
      have h2 := hp.1 (by simp [hE])
      simp [pairedInv, deliverCapture, onImageCaptured, hE, hpe, h1, h2]

theorem readProperties_pairedInv (xml : Xml S P X) (hasProject : Bool)
    (element : List (QDomElement X)) (it : Item S P) (h : pairedInv it) :
    pairedInv (readPropertiesFromElement xml hasProject element it).2 := by
  obtain ⟨hp, hs⟩ := h
  unfold readPropertiesFromElement
  cases firstChildElement element "qgis3d" <;> cases firstChildElement element "camera-pose" <;>
    simp [pairedInv, hp] <;> exact fun h => hs (hp.2 h)

/-- Every operation keeps `pairedInv` and does not stop on a null pointer. -/
theorem step_pairedInv [DecidableEq P] (xml : Xml S P X) (it : Item S P) (op : Op S P X)
    (h : pairedInv it) : ∃ it1, step xml it op = some it1 ∧ pairedInv it1 := by
  cases op with
  | setMapSettings s => exact ⟨_, rfl, by simp [pairedInv, setMapSettings]⟩
  | setCameraPose p =>
    refine ⟨_, rfl, ?_⟩
    by_cases hp : it.mCameraPose = p
    · simpa [setCameraPose, hp] using h
    · simp only [setCameraPose, hp, if_false]; exact h
  | sizePositionChanged sz => exact ⟨_, rfl, h⟩
  | refresh => exact ⟨_, rfl, h⟩
  | readPropertiesFromElement hp el => exact ⟨_, rfl, readProperties_pairedInv xml hp el it h⟩
  | draw ctx =>
    obtain ⟨r, hr, hinv⟩ := draw_pairedInv ctx it h
    exact ⟨r.item, by simp [step, hr], hinv⟩
  | imageCaptured => exact ⟨_, rfl, deliverCapture_pairedInv it h⟩
  | sceneStateChanged b => exact sceneStateChanged_pairedInv b it h

/-- Every run from a state with `pairedInv`, such as a newly constructed item,
ends, in a state where the engine is present exactly when the scene is, and
then settings are configured. -/
theorem run_pairedInv [DecidableEq P] (xml : Xml S P X) (ops : List (Op S P X)) :
    ∀ it : Item S P, pairedInv it → ∃ it1, run xml it ops = some it1 ∧ pairedInv it1 := by
  induction ops with
  | nil => intro it h; exact ⟨it, rfl, h⟩
  | cons op ops ih =>
    intro it h
    obtain ⟨it1, hs, h1⟩ := step_pairedInv xml it op h
    obtain ⟨it2, hr, h2⟩ := ih it1 h1
    exact ⟨it2, by simp [run, hs, hr], h2⟩

theorem newItem_pairedInv (mapId : Int) (size : QSize) (poseDefault : P) :
    pairedInv (newItem mapId size poseDefault : Item S P) := by
  simp [pairedInv, newItem]

theorem pairedInv_sceneWithEngine (it : Item S P) (h : pairedInv it) : sceneWithEngine it :=
  h.1.1

/-- C8 fails on the code: settings `5` are set, a draw builds engine and scene from
them, then `readPropertiesFromElement` reads settings `8` from a `qgis3d`
child; the settings are `8`, the engine is still there and the scene is the
one built from `5`. `setMapSettings` with `8` drops engine and scene. -/
theorem readProperties_keeps_old_scene :
    (run sampleXml (newItem 1 ⟨10, 10⟩ 0)
        [Op.setMapSettings (some 5), Op.draw previewCtx,
          Op.readPropertiesFromElement true [⟨"qgis3d", 8⟩]]).map
      (fun it => (it.mSettings, it.mEngine.isSome, it.mScene.map (fun sc => sc.settings))) =
        some (some 8, true, some 5) ∧
    (run sampleXml (newItem 1 ⟨10, 10⟩ 0)
        [Op.setMapSettings (some 5), Op.draw previewCtx, Op.setMapSettings (some 8)]).map
      (fun it => (it.mSettings, it.mEngine.isSome, it.mScene.map (fun sc => sc.settings))) =
        some (some 8, false, none) := by
  decide

end QgsLayoutItem3DMap
